import Mathlib

/-!
Shallow embedding of `src/lib/networks.js` from `bitcore-lib-zelcash`:
a process-wide registry of network descriptors with an ordered list,
a reverse index keyed by string-coerced scalar values, and a
testnet/regtest mode toggle resolved at read time.

JavaScript semantics captured here:
- object property keys are strings, so the reverse index coerces numeric
  values to their decimal string form on insertion and lookup;
- `if (data.networkMagic)` / `if (data.port)` are truthiness tests, so a
  zero value is treated as absent, while `if (data.dnsSeeds)` accepts any
  array (arrays are always truthy);
- the indexing loop in `addNetwork` skips `undefined` values and objects
  (buffers and arrays), indexing only scalar strings and numbers;
- object identity is modelled by a unique `id` stamped on each descriptor
  at `add` time (fresh ids make structural equality coincide with
  reference equality for all reachable descriptors);
- `removeNetwork` splices inside an index-incrementing loop, which skips
  the element following a removed one (faithfully modelled by
  `removeLoop`);
- the `port` / `networkMagic` / `dnsSeeds` getters installed on the
  testnet descriptor consult its `regtestEnabled` flag at read time,
  modelled by `readPort` / `readNetworkMagic` / `readDnsSeeds` keyed on
  the registry-wide flag (the flag lives on the unique testnet object).
-/

namespace ZelcashNetworks

/-- A specification record passed to `addNetwork` (`data` in the source).
`name` and `alias` are required strings per the data model; the numeric
fields and the three optional fields may be absent (`undefined`). -/
structure NetworkSpec where
  name : String
  aliasName : String
  pubkeyhash : Option Nat
  privatekey : Option Nat
  scripthash : Option Nat
  xpubkey : Option Nat
  xprivkey : Option Nat
  zaddr : Option Nat
  zkey : Option Nat
  networkMagic : Option Nat
  port : Option Nat
  dnsSeeds : Option (List String)
deriving DecidableEq, Repr

/-- A constructed network descriptor (`Network` in the source). `id` models
JavaScript object identity; `networkMagic` holds the 4-byte buffer. -/
structure Network where
  id : Nat
  name : String
  aliasName : String
  pubkeyhash : Option Nat
  privatekey : Option Nat
  scripthash : Option Nat
  xpubkey : Option Nat
  xprivkey : Option Nat
  zaddr : Option Nat
  zkey : Option Nat
  networkMagic : Option (List Nat)
  port : Option Nat
  dnsSeeds : Option (List String)
deriving DecidableEq, Repr

/-- The reverse index `networkMaps`: string key to descriptor. -/
abbrev NetworkMap := List (String × Network)

/-- Drop every entry with the given key (JS object keys are unique, so an
assignment replaces the previous binding for that key). -/
def eraseKey : NetworkMap → String → NetworkMap
  | [], _ => []
  | p :: m, k => if p.1 = k then eraseKey m k else p :: eraseKey m k

/-- Overwriting insertion, as assignment to a JS object property: the new
entry replaces any entry with the same (string) key. -/
def mapInsert (m : NetworkMap) (k : String) (v : Network) : NetworkMap :=
  (k, v) :: eraseKey m k

/-- Property lookup `networkMaps[k]`. -/
def mapLookup : NetworkMap → String → Option Network
  | [], _ => none
  | p :: m, k => if p.1 = k then some p.2 else mapLookup m k

/-- Insert every key of `ks` mapping to `d`, left to right. -/
def insertAll (m : NetworkMap) (ks : List String) (d : Network) : NetworkMap :=
  ks.foldl (fun acc k => mapInsert acc k d) m

/-- The registry's module-level state: the ordered `networks` list, the
reverse index `networkMaps`, a fresh-identity counter, and the testnet
descriptor's `regtestEnabled` flag (initially absent, hence falsy). -/
structure Registry where
  networks : List Network
  networkMaps : NetworkMap
  nextId : Nat
  regtestEnabled : Bool
deriving DecidableEq, Repr

/-- Modelled from the spec: `BufferUtil.integerAsBuffer`
(`src/lib/util/buffer.js`, not under `src/`) packs an integer as a 4-byte
big-endian buffer (the spec calls `networkMagic` a 4-byte value). -/
def integerAsBuffer (n : Nat) : List Nat :=
  [n / 2 ^ 24 % 256, n / 2 ^ 16 % 256, n / 2 ^ 8 % 256, n % 256]

/-- JS truthiness for an optional number: `0` (and absence) is falsy. -/
def truthy : Option Nat → Option Nat
  | some n => if n = 0 then none else some n
  | none => none

/-- Construction of the descriptor inside `addNetwork`: the nine scalar
fields are copied; `networkMagic` and `port` are set only when truthy;
`dnsSeeds` is set when present (an array is always truthy). -/
def mkNetwork (id : Nat) (data : NetworkSpec) : Network :=
  { id := id
    name := data.name
    aliasName := data.aliasName
    pubkeyhash := data.pubkeyhash
    privatekey := data.privatekey
    scripthash := data.scripthash
    xpubkey := data.xpubkey
    xprivkey := data.xprivkey
    zaddr := data.zaddr
    zkey := data.zkey
    networkMagic := (truthy data.networkMagic).map integerAsBuffer
    port := truthy data.port
    dnsSeeds := data.dnsSeeds }

/-- The string-coerced scalar values of a descriptor's own enumerable
fields, in definition order: the `_.each` loop in `addNetwork` indexes
every defined non-object value (strings and numbers), skipping the
`networkMagic` buffer and the `dnsSeeds` array. -/
def scalarValues (n : Network) : List String :=
  [n.name, n.aliasName] ++
    ([n.pubkeyhash, n.privatekey, n.scripthash, n.xpubkey, n.xprivkey,
      n.zaddr, n.zkey, n.port].filterMap (fun o => o.map toString))

/-- `addNetwork`: construct the descriptor, index its scalar values
(overwriting collisions), push it onto the ordered list, return it. -/
def addNetwork (s : Registry) (data : NetworkSpec) : Network × Registry :=
  let n := mkNetwork s.nextId data
  (n, { networks := s.networks ++ [n]
        networkMaps := insertAll s.networkMaps (scalarValues n) n
        nextId := s.nextId + 1
        regtestEnabled := s.regtestEnabled })

/-- The splice loop of `removeNetwork`: after removing the element at
index `i` the loop increments `i`, skipping the element that slid into
position `i`. -/
def removeLoop (d : Network) : List Network → List Network
  | [] => []
  | x :: xs =>
    if x = d then
      match xs with
      | [] => []
      | y :: ys => y :: removeLoop d ys
    else x :: removeLoop d xs

/-- The `for key in networkMaps` loop of `removeNetwork`: delete every
entry whose target is the given descriptor (identity comparison). -/
def purgeTarget : NetworkMap → Network → NetworkMap
  | [], _ => []
  | p :: m, d => if p.2 = d then purgeTarget m d else p :: purgeTarget m d

/-- `removeNetwork`: splice the descriptor out of the ordered list, then
delete every reverse-index entry whose target is that descriptor. -/
def removeNetwork (s : Registry) (d : Network) : Registry :=
  { s with
    networks := removeLoop d s.networks
    networkMaps := purgeTarget s.networkMaps d }

/-- The testnet bundle (`TESTNET` in the source). -/
def TESTNET_PORT : Nat := 18233

def TESTNET_NETWORK_MAGIC : List Nat := integerAsBuffer 0xfa1af9bf

def TESTNET_DNS_SEEDS : List String := ["dnsseedtestnet.zelcash.online"]

/-- The regtest bundle (`REGTEST` in the source). -/
def REGTEST_PORT : Nat := 18444

def REGTEST_NETWORK_MAGIC : List Nat := integerAsBuffer 0xaae83f5f

def REGTEST_DNS_SEEDS : List String := []

/-- The livenet specification literal from module initialization. -/
def livenetData : NetworkSpec :=
  { name := "livenet"
    aliasName := "mainnet"
    pubkeyhash := some 0x1cb8
    privatekey := some 0x80
    scripthash := some 0x1cbd
    xpubkey := some 0x0488b21e
    xprivkey := some 0x0488ade4
    zaddr := some 0x169a
    zkey := some 0xab36
    networkMagic := some 0x24e92764
    port := some 8233
    dnsSeeds := some ["bzcseed.raptorpool.org"] }

/-- The testnet specification literal from module initialization: no
`networkMagic`, `port` or `dnsSeeds` (they are installed later as
mode-dependent getters). -/
def testnetData : NetworkSpec :=
  { name := "testnet"
    aliasName := "regtest"
    pubkeyhash := some 0x1d25
    privatekey := some 0xef
    scripthash := some 0x1cba
    xpubkey := some 0x043587cf
    xprivkey := some 0x04358394
    zaddr := some 0x16b6
    zkey := some 0xac08
    networkMagic := none
    port := none
    dnsSeeds := none }

def emptyRegistry : Registry :=
  { networks := [], networkMaps := [], nextId := 0, regtestEnabled := false }

/-- State after `addNetwork(livenetData)`. -/
def afterLivenet : Network × Registry := addNetwork emptyRegistry livenetData

/-- The livenet descriptor (`var livenet = get('livenet')`). -/
def livenet : Network := afterLivenet.1

/-- State after `addNetwork(testnetData)`. -/
def afterTestnet : Network × Registry := addNetwork afterLivenet.2 testnetData

/-- The testnet descriptor (`var testnet = get('testnet')`). -/
def testnet : Network := afterTestnet.1

/-- The fully initialized module state: after both adds, the two bundle
loops index only the non-object bundle values — the ports — mapping them
to the testnet descriptor; the magic buffers and seed arrays are objects
and are skipped by the `_.isObject` filter. -/
def initRegistry : Registry :=
  let s := afterTestnet.2
  { s with
    networkMaps :=
      mapInsert (mapInsert s.networkMaps (toString TESTNET_PORT) testnet)
        (toString REGTEST_PORT) testnet }

/-- `enableRegtest()`: sets `testnet.regtestEnabled = true`. -/
def enableRegtest (s : Registry) : Registry :=
  { s with regtestEnabled := true }

/-- `disableRegtest()`: sets `testnet.regtestEnabled = false`. -/
def disableRegtest (s : Registry) : Registry :=
  { s with regtestEnabled := false }

/-- Reading `network.port`: the getter installed on the testnet object
resolves against the regtest flag; every other descriptor has a plain
field. -/
def readPort (s : Registry) (n : Network) : Option Nat :=
  if n = testnet then some (if s.regtestEnabled then REGTEST_PORT else TESTNET_PORT)
  else n.port

/-- Reading `network.networkMagic`, with the testnet getter. -/
def readNetworkMagic (s : Registry) (n : Network) : Option (List Nat) :=
  if n = testnet then
    some (if s.regtestEnabled then REGTEST_NETWORK_MAGIC else TESTNET_NETWORK_MAGIC)
  else n.networkMagic

/-- Reading `network.dnsSeeds`, with the testnet getter. -/
def readDnsSeeds (s : Registry) (n : Network) : Option (List String) :=
  if n = testnet then
    some (if s.regtestEnabled then REGTEST_DNS_SEEDS else TESTNET_DNS_SEEDS)
  else n.dnsSeeds

/-- An argument to `get`: a descriptor, a string, or a number. -/
inductive Key where
  | net : Network → Key
  | str : String → Key
  | num : Nat → Key
deriving DecidableEq, Repr

/-- String coercion of a key used for the reverse-index lookup
`networkMaps[arg]`: numbers print in decimal, a descriptor's `toString`
yields its `name`. -/
def keyString : Key → String
  | Key.net d => d.name
  | Key.str s => s
  | Key.num n => toString n

/-- Reading `network[field]` for the keyed scan and comparing with `===`:
scalar fields compare by value; `networkMagic` and `dnsSeeds` hold
objects, which are never reference-equal to a caller-supplied scalar key,
and an unknown field reads `undefined`. `port` goes through the testnet
getter. -/
def fieldRead (s : Registry) (n : Network) (field : String) : Option Key :=
  if field = "name" then some (Key.str n.name)
  else if field = "alias" then some (Key.str n.aliasName)
  else if field = "pubkeyhash" then n.pubkeyhash.map Key.num
  else if field = "privatekey" then n.privatekey.map Key.num
  else if field = "scripthash" then n.scripthash.map Key.num
  else if field = "xpubkey" then n.xpubkey.map Key.num
  else if field = "xprivkey" then n.xprivkey.map Key.num
  else if field = "zaddr" then n.zaddr.map Key.num
  else if field = "zkey" then n.zkey.map Key.num
  else if field = "port" then (readPort s n).map Key.num
  else none

/-- `_.any(keys, containsArg)`: some named field of `n` equals `arg`. -/
def fieldMatches (s : Registry) (n : Network) (keys : List String) (arg : Key) : Bool :=
  keys.any (fun k => decide (fieldRead s n k = some arg))

/-- The two fallback paths of `get` once the identity check has failed:
with `keys` supplied, scan the ordered list for the first any-field
match; otherwise look the string-coerced key up in the reverse index. -/
def getScan (s : Registry) (arg : Key) (keys : Option (List String)) : Option Network :=
  match keys with
  | some ks => s.networks.find? (fun n => fieldMatches s n ks arg)
  | none => mapLookup s.networkMaps (keyString arg)

/-- `get(arg, keys)`: the identity check `~networks.indexOf(arg)` passes a
registered descriptor through unchanged (only a descriptor argument can be
reference-equal to a list element); otherwise fall back to `getScan`. -/
def get (s : Registry) (arg : Key) (keys : Option (List String)) : Option Network :=
  match arg with
  | Key.net d => if d ∈ s.networks then some d else getScan s (Key.net d) keys
  | Key.str v => getScan s (Key.str v) keys
  | Key.num v => getScan s (Key.num v) keys

/-- Modelled from the spec: `JSUtil.defineImmutable` (`src/lib/util/js.js`,
not under `src/`) defines every constructed field non-writable, so an
attempted reassignment of a descriptor field is rejected or silently
ignored — the descriptor is unchanged. -/
def assignField (n : Network) ( _field : String) ( _v : Key) : Network := n

/-! ### Reverse-index helper lemmas -/

theorem eraseKey_cons (p : String × Network) (m : NetworkMap) (k : String) :
    eraseKey (p :: m) k = if p.1 = k then eraseKey m k else p :: eraseKey m k := rfl

theorem mapLookup_cons (p : String × Network) (m : NetworkMap) (k : String) :
    mapLookup (p :: m) k = if p.1 = k then some p.2 else mapLookup m k := rfl

theorem purgeTarget_cons (p : String × Network) (m : NetworkMap) (d : Network) :
    purgeTarget (p :: m) d = if p.2 = d then purgeTarget m d else p :: purgeTarget m d := rfl

theorem removeLoop_cons (d x : Network) (xs : List Network) :
    removeLoop d (x :: xs) =
      if x = d then
        (match xs with
         | [] => []
         | y :: ys => y :: removeLoop d ys)
      else x :: removeLoop d xs := by
  rw [removeLoop.eq_def]

@[simp] theorem insertAll_nil (m : NetworkMap) (d : Network) :
    insertAll m [] d = m := rfl

@[simp] theorem insertAll_cons (m : NetworkMap) (k : String) (ks : List String)
    (d : Network) : insertAll m (k :: ks) d = insertAll (mapInsert m k d) ks d := rfl

theorem mapLookup_insert_self (m : NetworkMap) (k : String) (d : Network) :
    mapLookup (mapInsert m k d) k = some d := by
  simp [mapLookup, mapInsert]

theorem mapLookup_eraseKey_ne {k k' : String} (m : NetworkMap) (h : k' ≠ k) :
    mapLookup (eraseKey m k') k = mapLookup m k := by
  induction m with
  | nil => rfl
  | cons a m ih =>
    by_cases ha : a.1 = k'
    · have hak : ¬a.1 = k := by rw [ha]; exact h
      rw [eraseKey_cons, if_pos ha, ih, mapLookup_cons, if_neg hak]
    · rw [eraseKey_cons, if_neg ha, mapLookup_cons, mapLookup_cons, ih]

theorem mapLookup_insert_ne {k k' : String} (m : NetworkMap) (d : Network)
    (h : k' ≠ k) : mapLookup (mapInsert m k' d) k = mapLookup m k := by
  rw [mapInsert, mapLookup, if_neg h]
  exact mapLookup_eraseKey_ne m h

theorem mapLookup_insertAll_not_mem {k : String} (ks : List String)
    (m : NetworkMap) (d : Network) (h : k ∉ ks) :
    mapLookup (insertAll m ks d) k = mapLookup m k := by
  induction ks generalizing m with
  | nil => rfl
  | cons k' ks ih =>
    have h1 : k ∉ ks := fun hm => h (List.mem_cons_of_mem _ hm)
    have h2 : k' ≠ k := fun he => h (he ▸ List.mem_cons_self _ _)
    rw [insertAll_cons, ih _ h1, mapLookup_insert_ne m d h2]

theorem mapLookup_insertAll_mem {k : String} (ks : List String)
    (m : NetworkMap) (d : Network) (h : k ∈ ks) :
    mapLookup (insertAll m ks d) k = some d := by
  induction ks generalizing m with
  | nil => cases h
  | cons k' ks ih =>
    rw [insertAll_cons]
    by_cases hk : k ∈ ks
    · exact ih _ hk
    · have hk' : k' = k := by
        rcases List.mem_cons.mp h with h1 | h2
        · exact h1.symm
        · exact absurd h2 hk
      rw [mapLookup_insertAll_not_mem ks _ d hk, hk', mapLookup_insert_self]

theorem mem_eraseKey {m : NetworkMap} {k : String} :
    ∀ p ∈ eraseKey m k, p ∈ m ∧ p.1 ≠ k := by
  induction m with
  | nil => intro p hp; cases hp
  | cons a m ih =>
    intro p hp
    by_cases ha : a.1 = k
    · rw [eraseKey, if_pos ha] at hp
      exact ⟨List.mem_cons_of_mem _ (ih p hp).1, (ih p hp).2⟩
    · rw [eraseKey, if_neg ha] at hp
      rcases List.mem_cons.mp hp with h1 | h2
      · exact ⟨h1 ▸ List.mem_cons_self _ _, h1 ▸ ha⟩
      · exact ⟨List.mem_cons_of_mem _ (ih p h2).1, (ih p h2).2⟩

theorem mem_mapInsert_self {k : String} {m : NetworkMap} {d : Network} :
    ∀ p ∈ mapInsert m k d, p.1 = k → p.2 = d := by
  intro p hp hk
  rcases List.mem_cons.mp hp with h1 | h2
  · rw [h1]
  · exact absurd hk (mem_eraseKey p h2).2

theorem mem_mapInsert_pres {k k' : String} {m : NetworkMap} {d : Network}
    (H : ∀ p ∈ m, p.1 = k → p.2 = d) :
    ∀ p ∈ mapInsert m k' d, p.1 = k → p.2 = d := by
  intro p hp hk
  rcases List.mem_cons.mp hp with h1 | h2
  · rw [h1]
  · exact H p (mem_eraseKey p h2).1 hk

theorem mem_insertAll_pres {k : String} {ks : List String} {m : NetworkMap}
    {d : Network} (H : ∀ p ∈ m, p.1 = k → p.2 = d) :
    ∀ p ∈ insertAll m ks d, p.1 = k → p.2 = d := by
  induction ks generalizing m with
  | nil => exact H
  | cons k' ks ih =>
    rw [insertAll_cons]
    exact ih (mem_mapInsert_pres H)

theorem mem_insertAll_key {k : String} {ks : List String} {m : NetworkMap}
    {d : Network} (hk : k ∈ ks) :
    ∀ p ∈ insertAll m ks d, p.1 = k → p.2 = d := by
  induction ks generalizing m with
  | nil => cases hk
  | cons k' ks ih =>
    rw [insertAll_cons]
    by_cases h : k ∈ ks
    · exact ih h
    · have hk' : k' = k := by
        rcases List.mem_cons.mp hk with h1 | h2
        · exact h1.symm
        · exact absurd h2 h
      exact mem_insertAll_pres (hk' ▸ @mem_mapInsert_self k' m d)

theorem mapLookup_purgeTarget_none {k : String} {m : NetworkMap} {d : Network}
    (H : ∀ p ∈ m, p.1 = k → p.2 = d) :
    mapLookup (purgeTarget m d) k = none := by
  induction m with
  | nil => rfl
  | cons a m ih =>
    have Hm : ∀ p ∈ m, p.1 = k → p.2 = d := fun p hp => H p (List.mem_cons_of_mem _ hp)
    by_cases had : a.2 = d
    · rw [purgeTarget, if_pos had]
      exact ih Hm
    · have hak : ¬a.1 = k := fun h => had (H a (List.mem_cons_self _ _) h)
      rw [purgeTarget, if_neg had, mapLookup, if_neg hak]
      exact ih Hm

theorem mem_purgeTarget {m : NetworkMap} {d : Network} :
    ∀ p ∈ purgeTarget m d, p ∈ m ∧ p.2 ≠ d := by
  induction m with
  | nil => intro p hp; cases hp
  | cons a m ih =>
    intro p hp
    by_cases ha : a.2 = d
    · rw [purgeTarget, if_pos ha] at hp
      exact ⟨List.mem_cons_of_mem _ (ih p hp).1, (ih p hp).2⟩
    · rw [purgeTarget, if_neg ha] at hp
      rcases List.mem_cons.mp hp with h1 | h2
      · exact ⟨h1 ▸ List.mem_cons_self _ _, h1 ▸ ha⟩
      · exact ⟨List.mem_cons_of_mem _ (ih p h2).1, (ih p h2).2⟩

theorem purgeTarget_of_no_target {m : NetworkMap} {d : Network}
    (H : ∀ p ∈ m, p.2 ≠ d) : purgeTarget m d = m := by
  induction m with
  | nil => rfl
  | cons a m ih =>
    rw [purgeTarget, if_neg (H a (List.mem_cons_self _ _))]
    rw [ih fun p hp => H p (List.mem_cons_of_mem _ hp)]

/-! ### Ordered-list helper lemmas -/

theorem removeLoop_of_not_mem {d : Network} {l : List Network} (h : d ∉ l) :
    removeLoop d l = l := by
  induction l with
  | nil => rfl
  | cons x xs ih =>
    have hx : ¬x = d := fun he => h (he ▸ List.mem_cons_self _ _)
    have hxs : d ∉ xs := fun hm => h (List.mem_cons_of_mem _ hm)
    rw [removeLoop_cons, if_neg hx, ih hxs]

theorem removeLoop_append_single {d : Network} {l : List Network} (h : d ∉ l) :
    removeLoop d (l ++ [d]) = l := by
  induction l with
  | nil => simp [removeLoop]
  | cons x xs ih =>
    have hx : ¬x = d := fun he => h (he ▸ List.mem_cons_self _ _)
    have hxs : d ∉ xs := fun hm => h (List.mem_cons_of_mem _ hm)
    rw [List.cons_append, removeLoop_cons, if_neg hx, ih hxs]

theorem removeLoop_sublist (d : Network) : ∀ l, List.Sublist (removeLoop d l) l
  | [] => List.nil_sublist []
  | x :: xs => by
    rw [removeLoop_cons]
    by_cases hx : x = d
    · rw [if_pos hx]
      match xs with
      | [] => exact List.nil_sublist _
      | y :: ys =>
        exact List.Sublist.cons _ (List.Sublist.cons₂ _ (removeLoop_sublist d ys))
    · rw [if_neg hx]
      exact List.Sublist.cons₂ _ (removeLoop_sublist d xs)

theorem find?_append_of_none {p : Network → Bool} {l1 l2 : List Network}
    (h : ∀ x ∈ l1, p x = false) :
    List.find? p (l1 ++ l2) = List.find? p l2 := by
  induction l1 with
  | nil => rfl
  | cons a l ih =>
    have ha : ¬p a = true := by simp [h a (List.mem_cons_self a l)]
    rw [List.cons_append, List.find?_cons_of_neg _ ha]
    exact ih fun x hx => h x (List.mem_cons_of_mem _ hx)

/-! ### Unfolding equations for `get` -/

theorem get_net (s : Registry) (d : Network) (keys : Option (List String)) :
    get s (Key.net d) keys =
      if d ∈ s.networks then some d else getScan s (Key.net d) keys := rfl

theorem get_num (s : Registry) (v : Nat) (keys : Option (List String)) :
    get s (Key.num v) keys = getScan s (Key.num v) keys := rfl

theorem getScan_none (s : Registry) (arg : Key) :
    getScan s arg none = mapLookup s.networkMaps (keyString arg) := rfl

theorem getScan_some (s : Registry) (arg : Key) (ks : List String) :
    getScan s arg (some ks) = s.networks.find? (fun n => fieldMatches s n ks arg) := rfl

theorem fieldRead_pubkeyhash (s : Registry) (n : Network) :
    fieldRead s n "pubkeyhash" = n.pubkeyhash.map Key.num := rfl

theorem fieldRead_scripthash (s : Registry) (n : Network) :
    fieldRead s n "scripthash" = n.scripthash.map Key.num := rfl

theorem map_keynum_eq {o : Option Nat} {v : Nat} :
    o.map Key.num = some (Key.num v) ↔ o = some v := by
  cases o <;> simp

/-! ### Witness fixtures: concrete specification records -/

/-- A spec whose `networkMagic` and `port` are present but zero. -/
def zeroPortData : NetworkSpec :=
  { name := "zeronet", aliasName := "zero", pubkeyhash := none, privatekey := none,
    scripthash := none, xpubkey := none, xprivkey := none, zaddr := none, zkey := none,
    networkMagic := some 0, port := some 0, dnsSeeds := none }

/-- A spec with a nonzero port, for the amended-C5 witness. -/
def sevenPortData : NetworkSpec :=
  { name := "sevennet", aliasName := "seven", pubkeyhash := none, privatekey := none,
    scripthash := none, xpubkey := none, xprivkey := none, zaddr := none, zkey := none,
    networkMagic := none, port := some 7, dnsSeeds := none }

/-- A spec carrying a fresh pubkeyhash value, for the round-trip witness. -/
def wnetData : NetworkSpec :=
  { name := "wnet", aliasName := "w", pubkeyhash := some 9001, privatekey := none,
    scripthash := none, xpubkey := none, xprivkey := none, zaddr := none, zkey := none,
    networkMagic := none, port := none, dnsSeeds := none }

/-- First spec of the collision pair: `pubkeyhash = 9100`. -/
def collData1 : NetworkSpec :=
  { name := "colla", aliasName := "collaa", pubkeyhash := some 9100, privatekey := none,
    scripthash := some 9101, xpubkey := none, xprivkey := none, zaddr := none, zkey := none,
    networkMagic := none, port := none, dnsSeeds := none }

/-- Second spec of the collision pair: `scripthash = 9100`. -/
def collData2 : NetworkSpec :=
  { name := "collb", aliasName := "collbb", pubkeyhash := some 9102, privatekey := none,
    scripthash := some 9100, xpubkey := none, xprivkey := none, zaddr := none, zkey := none,
    networkMagic := none, port := none, dnsSeeds := none }

/-- A descriptor that was never registered. -/
def strayNet : Network := mkNetwork 99 wnetData

/-! ### Claim theorems -/

/-- Claim C1, as stated, is false: the bundles' 4-byte network magic values
are buffers — objects — so the initialization loops skip them and `get` by
raw magic number returns absent, not the testnet descriptor. -/
theorem C1_counterexample :
    get initRegistry (Key.num 0xfa1af9bf) none = none ∧
    get initRegistry (Key.num 0xaae83f5f) none = none := by decide

/-- Claim C1 (amended): at initialization only the scalar bundle values —
the ports 18233 and 18444 — are inserted into the reverse index mapping to
the testnet descriptor, so `get` by port returns the testnet descriptor
regardless of `regtestEnabled`, while `get` by raw magic number returns
absent regardless of `regtestEnabled`. -/
theorem C1_theorem :
    get initRegistry (Key.num 18233) none = some testnet ∧
    get initRegistry (Key.num 18444) none = some testnet ∧
    get (enableRegtest initRegistry) (Key.num 18233) none = some testnet ∧
    get (enableRegtest initRegistry) (Key.num 18444) none = some testnet ∧
    get initRegistry (Key.num 0xfa1af9bf) none = none ∧
    get (enableRegtest initRegistry) (Key.num 0xfa1af9bf) none = none ∧
    get (enableRegtest initRegistry) (Key.num 0xaae83f5f) none = none := by decide

/-- Claim C2: `testnet.port` reads 18233 before `enableRegtest()`, 18444
after it, and 18233 again after `disableRegtest()`, while the ordered list
(and hence the testnet descriptor's identity) is untouched by the toggles
and `testnet.pubkeyhash` is `0x1d25` throughout. -/
theorem C2_theorem :
    readPort initRegistry testnet = some 18233 ∧
    readPort (enableRegtest initRegistry) testnet = some 18444 ∧
    readPort (disableRegtest (enableRegtest initRegistry)) testnet = some 18233 ∧
    (enableRegtest initRegistry).networks = initRegistry.networks ∧
    (disableRegtest (enableRegtest initRegistry)).networks = initRegistry.networks ∧
    testnet.pubkeyhash = some 0x1d25 := by decide

/-- Claim C5, as stated, is false: a `port` or `networkMagic` value of `0`
is present in the specification but falsy, so `addNetwork` does not set
the field on the descriptor. -/
theorem C5_counterexample :
    (addNetwork initRegistry zeroPortData).1.port = none ∧
    (addNetwork initRegistry zeroPortData).1.networkMagic = none := by decide

/-- Claim C5 (amended): the descriptor returned by `add(spec)` has `port`
(resp. `networkMagic`) set if and only if the specification value is
present and nonzero (truthy), in which case the given value is stored
(the magic packed as a 4-byte buffer); `dnsSeeds` is set if and only if
present, with the given value (an array is truthy even when empty). -/
theorem C5_theorem (s : Registry) (data : NetworkSpec) :
    ((addNetwork s data).1.port ≠ none ↔ ∃ p, data.port = some p ∧ p ≠ 0) ∧
    (∀ p, data.port = some p → p ≠ 0 → (addNetwork s data).1.port = some p) ∧
    ((addNetwork s data).1.networkMagic ≠ none ↔
      ∃ mg, data.networkMagic = some mg ∧ mg ≠ 0) ∧
    (∀ mg, data.networkMagic = some mg → mg ≠ 0 →
      (addNetwork s data).1.networkMagic = some (integerAsBuffer mg)) ∧
    (addNetwork s data).1.dnsSeeds = data.dnsSeeds := by
  refine ⟨?_, ?_, ?_, ?_, rfl⟩
  · cases hp : data.port with
    | none => simp [addNetwork, mkNetwork, truthy, hp]
    | some p =>
      by_cases h0 : p = 0 <;> simp [addNetwork, mkNetwork, truthy, hp, h0]
  · intro p hp h0
    simp [addNetwork, mkNetwork, truthy, hp, h0]
  · cases hm : data.networkMagic with
    | none => simp [addNetwork, mkNetwork, truthy, hm]
    | some mg =>
      by_cases h0 : mg = 0 <;> simp [addNetwork, mkNetwork, truthy, hm, h0]
  · intro mg hm h0
    simp [addNetwork, mkNetwork, truthy, hm, h0]

/-- Witness for the amended C5 at a concrete spec with `port = 7`. -/
theorem C5_witness : (addNetwork initRegistry sevenPortData).1.port = some 7 :=
  (C5_theorem initRegistry sevenPortData).2.1 7 rfl (by decide)

/-- Claim C6: `get` applied to a descriptor currently in the ordered list
returns that descriptor itself, whatever the `keys` argument. -/
theorem C6_theorem (s : Registry) (d : Network) (keys : Option (List String))
    (h : d ∈ s.networks) : get s (Key.net d) keys = some d := by
  rw [get_net, if_pos h]

/-- Witness for C6: `get(livenet)` returns `livenet` itself. -/
theorem C6_witness :
    livenet ∈ initRegistry.networks ∧
    get initRegistry (Key.net livenet) none = some livenet ∧
    get initRegistry (Key.net livenet) (some ["pubkeyhash"]) = some livenet :=
  ⟨by decide, C6_theorem initRegistry livenet none (by decide),
    C6_theorem initRegistry livenet (some ["pubkeyhash"]) (by decide)⟩

/-- Claim C8: `testnet.dnsSeeds` reads a non-empty list when regtest mode
is off and the empty list when it is on, in any registry state. -/
theorem C8_theorem (s : Registry) :
    readDnsSeeds (enableRegtest s) testnet = some [] ∧
    readDnsSeeds (disableRegtest s) testnet = some TESTNET_DNS_SEEDS ∧
    TESTNET_DNS_SEEDS ≠ [] :=
  ⟨rfl, rfl, by decide⟩

/-- Claim C10: the reverse index coerces numeric keys to their decimal
string form, so `get` applied to a number and to its string form always
agree; in particular `get` at the number 8233 and at the string "8233" both return the
livenet descriptor. -/
theorem C10_theorem (s : Registry) (v : Nat) :
    get s (Key.num v) none = get s (Key.str (toString v)) none ∧
    get initRegistry (Key.num 8233) none = some livenet ∧
    get initRegistry (Key.str "8233") none = some livenet :=
  ⟨rfl, by decide, by decide⟩

/-- Claim C3: adding a spec and immediately removing the returned
descriptor leaves `get` absent both for the descriptor itself and for the
spec's `pubkeyhash` value — `remove` purges the splice list and every
reverse-index entry targeting the descriptor. (The well-formedness
hypothesis says every registered descriptor's identity predates the
fresh-identity counter, which holds in every reachable state.) -/
theorem C3_theorem (s : Registry) (data : NetworkSpec)
    (hwf : ∀ n ∈ s.networks, n.id < s.nextId) :
    get (removeNetwork (addNetwork s data).2 (addNetwork s data).1)
      (Key.net (addNetwork s data).1) none = none ∧
    (∀ v, data.pubkeyhash = some v →
      get (removeNetwork (addNetwork s data).2 (addNetwork s data).1)
        (Key.num v) none = none) := by
  have hid : (addNetwork s data).1.id = s.nextId := rfl
  have hd : (addNetwork s data).1 ∉ s.networks := by
    intro hmem
    have h := hwf _ hmem
    rw [hid] at h
    exact Nat.lt_irrefl _ h
  have hnet : (removeNetwork (addNetwork s data).2 (addNetwork s data).1).networks
      = s.networks := by
    show removeLoop (addNetwork s data).1 (s.networks ++ [(addNetwork s data).1])
      = s.networks
    exact removeLoop_append_single hd
  constructor
  · rw [get_net, hnet, if_neg hd, getScan_none]
    have hname : (addNetwork s data).1.name ∈ scalarValues (addNetwork s data).1 := by
      simp [scalarValues]
    exact mapLookup_purgeTarget_none (mem_insertAll_key hname)
  · intro v hv
    have hpk : (addNetwork s data).1.pubkeyhash = some v := hv
    have hkey : toString v ∈ scalarValues (addNetwork s data).1 := by
      refine List.mem_append_right _ (List.mem_filterMap.mpr ?_)
      exact ⟨(addNetwork s data).1.pubkeyhash, by simp, by rw [hpk]; rfl⟩
    rw [get_num, getScan_none]
    exact mapLookup_purgeTarget_none (mem_insertAll_key hkey)

/-- Witness for C3 at the initial registry and a concrete spec. -/
theorem C3_witness :
    (∀ n ∈ initRegistry.networks, n.id < initRegistry.nextId) ∧
    get (removeNetwork (addNetwork initRegistry wnetData).2
        (addNetwork initRegistry wnetData).1)
      (Key.net (addNetwork initRegistry wnetData).1) none = none ∧
    get (removeNetwork (addNetwork initRegistry wnetData).2
        (addNetwork initRegistry wnetData).1)
      (Key.num 9001) none = none :=
  ⟨by decide, (C3_theorem initRegistry wnetData (by decide)).1,
    (C3_theorem initRegistry wnetData (by decide)).2 9001 rfl⟩

/-- Claim C4: after adding two descriptors whose `pubkeyhash` resp.
`scripthash` share the value `v` (fresh for the pre-state), the indexed
path `get(v)` returns the descriptor added last, while the keyed scans
`get(v, "pubkeyhash")` and `get(v, "scripthash")` each return the first
descriptor in insertion order whose named field equals `v` — the first
descriptor for `pubkeyhash`, the second for `scripthash` — so the two
lookup paths return different descriptors for the same key. -/
theorem C4_theorem (s : Registry) (data1 data2 : NetworkSpec) (v : Nat)
    (h1 : data1.pubkeyhash = some v) (h2 : data2.scripthash = some v)
    (h1s : data1.scripthash ≠ some v)
    (hpre1 : ∀ n ∈ s.networks, n.pubkeyhash ≠ some v)
    (hpre2 : ∀ n ∈ s.networks, n.scripthash ≠ some v) :
    get (addNetwork (addNetwork s data1).2 data2).2 (Key.num v) none
      = some (addNetwork (addNetwork s data1).2 data2).1 ∧
    get (addNetwork (addNetwork s data1).2 data2).2 (Key.num v) (some ["pubkeyhash"])
      = some (addNetwork s data1).1 ∧
    get (addNetwork (addNetwork s data1).2 data2).2 (Key.num v) (some ["scripthash"])
      = some (addNetwork (addNetwork s data1).2 data2).1 ∧
    (addNetwork s data1).1 ≠ (addNetwork (addNetwork s data1).2 data2).1 := by
  have hd1pk : (addNetwork s data1).1.pubkeyhash = some v := h1
  have hd1sh : (addNetwork s data1).1.scripthash ≠ some v := h1s
  have hd2sh : (addNetwork (addNetwork s data1).2 data2).1.scripthash = some v := h2
  refine ⟨?_, ?_, ?_, ?_⟩
  · rw [get_num, getScan_none]
    have hkey : toString v ∈ scalarValues (addNetwork (addNetwork s data1).2 data2).1 := by
      refine List.mem_append_right _ (List.mem_filterMap.mpr ?_)
      exact ⟨(addNetwork (addNetwork s data1).2 data2).1.scripthash, by simp,
        by rw [hd2sh]; rfl⟩
    exact mapLookup_insertAll_mem _ _ _ hkey
  · rw [get_num, getScan_some]
    show List.find? _ ((s.networks ++ [(addNetwork s data1).1])
      ++ [(addNetwork (addNetwork s data1).2 data2).1]) = _
    rw [List.append_assoc]
    rw [find?_append_of_none (fun n hn => ?_)]
    · rw [List.singleton_append, List.find?_cons_of_pos _ ?_]
      simp only [fieldMatches, List.any_cons, List.any_nil, fieldRead_pubkeyhash,
        Bool.or_false, decide_eq_true_eq]
      rw [hd1pk]
      rfl
    · simp only [fieldMatches, List.any_cons, List.any_nil, fieldRead_pubkeyhash,
        Bool.or_false, decide_eq_false_iff_not]
      rw [map_keynum_eq]
      exact hpre1 n hn
  · rw [get_num, getScan_some]
    show List.find? _ ((s.networks ++ [(addNetwork s data1).1])
      ++ [(addNetwork (addNetwork s data1).2 data2).1]) = _
    rw [List.append_assoc]
    rw [find?_append_of_none (fun n hn => ?_)]
    · rw [List.singleton_append, List.find?_cons_of_neg _ ?_,
        List.find?_cons_of_pos _ ?_]
      · simp only [fieldMatches, List.any_cons, List.any_nil, fieldRead_scripthash,
          Bool.or_false, decide_eq_true_eq]
        rw [hd2sh]
        rfl
      · simp only [fieldMatches, List.any_cons, List.any_nil, fieldRead_scripthash,
          Bool.or_false, decide_eq_true_eq]
        rw [map_keynum_eq]
        exact hd1sh
    · simp only [fieldMatches, List.any_cons, List.any_nil, fieldRead_scripthash,
        Bool.or_false, decide_eq_false_iff_not]
      rw [map_keynum_eq]
      exact hpre2 n hn
  · intro he
    have hids : (addNetwork s data1).1.id
        = (addNetwork (addNetwork s data1).2 data2).1.id := congrArg Network.id he
    have h1id : (addNetwork s data1).1.id = s.nextId := rfl
    have h2id : (addNetwork (addNetwork s data1).2 data2).1.id = s.nextId + 1 := rfl
    rw [h1id, h2id] at hids
    exact Nat.succ_ne_self s.nextId hids.symm

/-- Witness for C4 at the initial registry with the collision value 9100. -/
theorem C4_witness :
    get (addNetwork (addNetwork initRegistry collData1).2 collData2).2
        (Key.num 9100) none
      = some (addNetwork (addNetwork initRegistry collData1).2 collData2).1 ∧
    get (addNetwork (addNetwork initRegistry collData1).2 collData2).2
        (Key.num 9100) (some ["pubkeyhash"])
      = some (addNetwork initRegistry collData1).1 ∧
    get (addNetwork (addNetwork initRegistry collData1).2 collData2).2
        (Key.num 9100) (some ["scripthash"])
      = some (addNetwork (addNetwork initRegistry collData1).2 collData2).1 ∧
    (addNetwork initRegistry collData1).1
      ≠ (addNetwork (addNetwork initRegistry collData1).2 collData2).1 :=
  C4_theorem initRegistry collData1 collData2 9100 rfl rfl (by decide)
    (by decide) (by decide)

/-- Claim C7: no operation mutates a registered descriptor's constructed
fields — `assignField` (immutable properties) returns the descriptor
unchanged, the toggles leave the ordered list untouched, `remove` and
`add` only shrink or extend the set of registered descriptors, and the
toggles change no read of any descriptor other than the testnet one
(whose `port`, `networkMagic` and `dnsSeeds` reads are the sanctioned
mode-dependent resolutions). -/
theorem C7_theorem (s : Registry) (data : NetworkSpec) (d n : Network)
    (f : String) (v : Key) :
    assignField n f v = n ∧
    (enableRegtest s).networks = s.networks ∧
    (disableRegtest s).networks = s.networks ∧
    (∀ m ∈ (removeNetwork s d).networks, m ∈ s.networks) ∧
    (∀ m ∈ (addNetwork s data).2.networks,
      m ∈ s.networks ∨ m = (addNetwork s data).1) ∧
    (n ≠ testnet →
      readPort (enableRegtest s) n = readPort s n ∧
      readNetworkMagic (enableRegtest s) n = readNetworkMagic s n ∧
      readDnsSeeds (enableRegtest s) n = readDnsSeeds s n ∧
      readPort (disableRegtest s) n = readPort s n ∧
      readNetworkMagic (disableRegtest s) n = readNetworkMagic s n ∧
      readDnsSeeds (disableRegtest s) n = readDnsSeeds s n) := by
  refine ⟨rfl, rfl, rfl, ?_, ?_, ?_⟩
  · exact fun m hm => (removeLoop_sublist d s.networks).subset hm
  · intro m hm
    rcases List.mem_append.mp hm with h | h
    · exact Or.inl h
    · exact Or.inr (List.mem_singleton.mp h)
  · intro hn
    refine ⟨?_, ?_, ?_, ?_, ?_, ?_⟩ <;>
      simp [readPort, readNetworkMagic, readDnsSeeds, hn]

/-- Witness for C7 at the livenet descriptor (not the testnet one). -/
theorem C7_witness :
    assignField livenet "port" (Key.num 0) = livenet ∧
    readPort (enableRegtest initRegistry) livenet = readPort initRegistry livenet :=
  ⟨(C7_theorem initRegistry wnetData strayNet livenet "port" (Key.num 0)).1,
    ((C7_theorem initRegistry wnetData strayNet livenet "port"
      (Key.num 0)).2.2.2.2.2 (by decide)).1⟩

/-- Claim C9: removing a descriptor that is not in the ordered list is a
total no-op: the registry state is unchanged. (The hypothesis that every
reverse-index target is registered holds in every reachable state.) -/
theorem C9_theorem (s : Registry) (d : Network) (hd : d ∉ s.networks)
    (hm : ∀ p ∈ s.networkMaps, p.2 ∈ s.networks) :
    removeNetwork s d = s := by
  have h1 : removeLoop d s.networks = s.networks := removeLoop_of_not_mem hd
  have h2 : purgeTarget s.networkMaps d = s.networkMaps :=
    purgeTarget_of_no_target fun p hp he => hd (he ▸ hm p hp)
  cases s
  simp_all [removeNetwork]

/-- Witness for C9: removing a never-registered descriptor from the
initial registry changes nothing. -/
theorem C9_witness :
    strayNet ∉ initRegistry.networks ∧
    (∀ p ∈ initRegistry.networkMaps, p.2 ∈ initRegistry.networks) ∧
    removeNetwork initRegistry strayNet = initRegistry :=
  ⟨by decide, by decide, C9_theorem initRegistry strayNet (by decide) (by decide)⟩

end ZelcashNetworks
